import Mathlib

/-!
Formal model of the `doh` DNS-over-HTTPS package (client, server, and the
Question/Answer data model with its URL-parameter and symbol-table codecs).

Machine integers (Go `int`, 64-bit) are modelled as `Int`, with the int64
range bounds made explicit where Go's `strconv` clamps on overflow.
Strings are Lean `String`s; Go indexes bytes, but every byte-level test the
code performs (`name[len(name)-1] == '.'`, `b[0] == '"'`) coincides with the
corresponding character-level test because the compared bytes are ASCII and
UTF-8 continuation bytes are never ASCII.
-/

/-- Largest value of Go's 64-bit `int`. -/
def maxI64 : Int := 9223372036854775807

/-- Smallest value of Go's 64-bit `int`. -/
def minI64 : Int := -9223372036854775808

/-- The ASCII character of a decimal digit. -/
def digitChar (n : Nat) : Char := Char.ofNat (48 + n)

/-- The value of an ASCII decimal digit, `none` for any other character. -/
def digitVal (c : Char) : Option Nat :=
  if '0' ≤ c ∧ c ≤ '9' then some (c.toNat - 48) else none

/-- Fuel-driven decimal digit writer (structural recursion so that closed
terms reduce in the kernel); `natDigits` supplies enough fuel. -/
def natDigitsAux : Nat → Nat → List Char
  | 0, _ => []
  | fuel + 1, n =>
    if n < 10 then [digitChar n]
    else natDigitsAux fuel (n / 10) ++ [digitChar (n % 10)]

/-- Decimal digit string of a natural number (most significant first). -/
def natDigits (n : Nat) : List Char := natDigitsAux (n + 1) n

theorem natDigitsAux_fuel :
    ∀ n f₁ f₂, n < f₁ → n < f₂ → natDigitsAux f₁ n = natDigitsAux f₂ n := by
  intro n
  induction n using Nat.strong_induction_on with
  | _ n ih =>
    intro f₁ f₂ h₁ h₂
    cases f₁ with
    | zero => omega
    | succ g₁ =>
      cases f₂ with
      | zero => omega
      | succ g₂ =>
        simp only [natDigitsAux]
        by_cases h : n < 10
        · simp [h]
        · simp only [h, if_false]
          have hlt : n / 10 < n := Nat.div_lt_self (by omega) (by omega)
          rw [ih (n / 10) hlt g₁ g₂ (by omega) (by omega)]

theorem natDigits_unfold (n : Nat) :
    natDigits n =
      if n < 10 then [digitChar n]
      else natDigits (n / 10) ++ [digitChar (n % 10)] := by
  show natDigitsAux (n + 1) n = _
  by_cases h : n < 10
  · simp [natDigitsAux, h]
  · simp only [natDigitsAux, h, if_false]
    have hlt : n / 10 < n := Nat.div_lt_self (by omega) (by omega)
    rw [natDigitsAux_fuel (n / 10) n (n / 10 + 1) (by omega) (by omega)]
    rfl

/-- Go `strconv.Itoa`: decimal representation of a (64-bit) integer. -/
def goItoa (n : Int) : String :=
  if n < 0 then "-" ++ String.mk (natDigits (-n).toNat)
  else String.mk (natDigits n.toNat)

/-- Accumulating decimal parser: fails on the first non-digit character. -/
def readDigits : Nat → List Char → Option Nat
  | acc, [] => some acc
  | acc, c :: cs =>
    match digitVal c with
    | some d => readDigits (acc * 10 + d) cs
    | none => none

/-- Parse a non-empty all-digit string; `none` if empty or any non-digit. -/
def parseDigits (cs : List Char) : Option Nat :=
  match cs with
  | [] => none
  | _ :: _ => readDigits 0 cs

/-- Go `strconv.Atoi` semantics, returned as `(value, err == nil)`.
A leading `+` or `-` sign is accepted; a syntax error (empty string, stray
sign, any non-digit) yields `(0, false)`; a value outside the int64 range
yields the clamped boundary value together with `false` (Go's `ErrRange`
behaviour); otherwise `(value, true)`. -/
def goAtoi (s : String) : Int × Bool :=
  match s.data with
  | [] => (0, false)
  | c :: rest =>
    let p : Bool × List Char :=
      if c = '-' then (true, rest)
      else if c = '+' then (false, rest)
      else (false, c :: rest)
    match parseDigits p.2 with
    | none => (0, false)
    | some n =>
      let v : Int := if p.1 then -(n : Int) else (n : Int)
      if v > maxI64 then (maxI64, false)
      else if v < minI64 then (minI64, false)
      else (v, true)

/-- Go `strconv.ParseBool` semantics, returned as `(value, err == nil)`:
the twelve accepted literals, anything else `(false, false)`. -/
def goParseBool (s : String) : Bool × Bool :=
  if s = "1" ∨ s = "t" ∨ s = "T" ∨ s = "true" ∨ s = "TRUE" ∨ s = "True" then
    (true, true)
  else if s = "0" ∨ s = "f" ∨ s = "F" ∨ s = "false" ∨ s = "FALSE" ∨ s = "False" then
    (false, true)
  else (false, false)

/-- `IsFQDN` from doh.go: true iff the name is longer than one byte and ends
in a dot. -/
def IsFQDN (name : String) : Bool :=
  decide (1 < name.length) && (name.data.getLast? == some '.')

/-- `FQDN` from doh.go: append a trailing dot unless already fully
qualified. -/
def FQDN (name : String) : String :=
  if !(IsFQDN name) then name ++ "." else name

theorem string_append_data (a b : String) : (a ++ b).data = a.data ++ b.data := rfl

theorem string_ne_empty_data {name : String} (h : name ≠ "") : name.data ≠ [] := by
  intro hd
  apply h
  cases name with
  | mk d => cases hd; rfl

theorem string_length_data (s : String) : s.length = s.data.length := rfl

theorem fqdn_of_isFQDN {s : String} (h : IsFQDN s = true) : FQDN s = s := by
  simp [FQDN, h]

/-- C10: for every non-empty name, `FQDN name` ends in a dot, satisfies
`IsFQDN`, and `FQDN` is idempotent at it; for the empty name, `FQDN "" = "."`,
which `IsFQDN` rejects, so `FQDN` is not idempotent at `""`. -/
theorem fqdn_spec (name : String) :
    (name ≠ "" →
      (FQDN name).data.getLast? = some '.' ∧
      IsFQDN (FQDN name) = true ∧
      FQDN (FQDN name) = FQDN name) ∧
    (FQDN "" = "." ∧ IsFQDN (FQDN "") = false ∧ FQDN (FQDN "") ≠ FQDN "") := by
  constructor
  · intro hne
    have hdata : name.data ≠ [] := string_ne_empty_data hne
    have hlen : 0 < name.length := by
      cases name with
      | mk d =>
        cases d with
        | nil => exact absurd rfl hdata
        | cons a l => simp [String.length]
    have key : (FQDN name).data.getLast? = some '.' ∧ 1 < (FQDN name).length := by
      by_cases hq : IsFQDN name = true
      · have h1 : FQDN name = name := by simp [FQDN, hq]
        have h2 := hq
        simp only [IsFQDN, Bool.and_eq_true, decide_eq_true_eq, beq_iff_eq] at h2
        rw [h1]
        exact ⟨h2.2, h2.1⟩
      · have h1 : FQDN name = name ++ "." := by
          simp [FQDN, Bool.not_eq_true] at *
          simp [FQDN, hq]
        constructor
        · rw [h1, string_append_data]
          simp [List.getLast?_concat]
        · rw [h1]
          have hl : (name ++ ".").data.length = name.data.length + 1 := by
            rw [string_append_data, List.length_append]
            rfl
          rw [string_length_data] at hlen ⊢
          rw [hl]
          omega
    have hfq : IsFQDN (FQDN name) = true := by
      simp only [IsFQDN, Bool.and_eq_true, decide_eq_true_eq, beq_iff_eq]
      exact ⟨key.2, key.1⟩
    exact ⟨key.1, hfq, fqdn_of_isFQDN hfq⟩
  · refine ⟨by decide, by decide, by decide⟩

/-- Witness for C10 at the concrete name "example.org". -/
theorem fqdn_spec_witness :
    ("example.org" : String) ≠ "" ∧
    ((FQDN "example.org").data.getLast? = some '.' ∧
      IsFQDN (FQDN "example.org") = true ∧
      FQDN (FQDN "example.org") = FQDN "example.org") :=
  ⟨by decide, (fqdn_spec "example.org").1 (by decide)⟩

theorem digitVal_digitChar {d : Nat} (h : d < 10) : digitVal (digitChar d) = some d := by
  interval_cases d <;> decide

theorem digitChar_bounds {d : Nat} (h : d < 10) :
    '0' ≤ digitChar d ∧ digitChar d ≤ '9' := by
  interval_cases d <;> decide

theorem digitChar_ne {d : Nat} (h : d < 10) :
    digitChar d ≠ '-' ∧ digitChar d ≠ '+' ∧ digitChar d ≠ '"' ∧
      (1 ≤ d → digitChar d ≠ '0') := by
  interval_cases d <;> decide

/-- The decimal digit string of `n` is non-empty, starts with a digit below
ten, and with a non-zero digit when `n` itself is non-zero. -/
theorem natDigits_shape (n : Nat) :
    ∃ d cs, natDigits n = digitChar d :: cs ∧ d < 10 ∧ (1 ≤ n → 1 ≤ d) := by
  induction n using Nat.strong_induction_on with
  | _ n ih =>
    rw [natDigits_unfold]
    by_cases h : n < 10
    · exact ⟨n, [], by simp [h], h, fun h1 => h1⟩
    · obtain ⟨d, cs, heq, hd, hpos⟩ := ih (n / 10) (Nat.div_lt_self (by omega) (by omega))
      refine ⟨d, cs ++ [digitChar (n % 10)], ?_, hd, ?_⟩
      · simp [h, heq]
      · intro _
        exact hpos (by omega)

theorem readDigits_append (l₁ l₂ : List Char) (acc : Nat) :
    readDigits acc (l₁ ++ l₂) =
      match readDigits acc l₁ with
      | some a => readDigits a l₂
      | none => none := by
  induction l₁ generalizing acc with
  | nil => simp [readDigits]
  | cons c cs ih =>
    simp only [List.cons_append, readDigits]
    cases digitVal c with
    | none => rfl
    | some d => exact ih (acc * 10 + d)

theorem readDigits_natDigits (n : Nat) :
    ∀ acc, readDigits acc (natDigits n) =
      some (acc * 10 ^ (natDigits n).length + n) := by
  induction n using Nat.strong_induction_on with
  | _ n ih =>
    intro acc
    rw [natDigits_unfold]
    by_cases h : n < 10
    · simp only [h, if_true, readDigits, digitVal_digitChar h, List.length_cons,
        List.length_nil]
      simp [pow_one]
    · simp only [h, if_false]
      have hlt : n / 10 < n := Nat.div_lt_self (by omega) (by omega)
      rw [readDigits_append, ih (n / 10) hlt acc]
      simp only [readDigits, digitVal_digitChar (Nat.mod_lt n (by omega)),
        List.length_append, List.length_cons, List.length_nil]
      have hdm : n / 10 * 10 + n % 10 = n := by omega
      congr 1
      rw [pow_succ]
      have : acc * (10 ^ (natDigits (n / 10)).length * 10) =
          acc * 10 ^ (natDigits (n / 10)).length * 10 := by ring
      rw [this]
      omega

theorem parseDigits_natDigits (n : Nat) : parseDigits (natDigits n) = some n := by
  obtain ⟨d, cs, heq, _, _⟩ := natDigits_shape n
  rw [parseDigits.eq_def, heq]
  show readDigits 0 (digitChar d :: cs) = some n
  rw [← heq, readDigits_natDigits n 0]
  simp

/-- Round trip of Go `strconv.Itoa` followed by `strconv.Atoi` on positive
int64 values. -/
theorem goAtoi_goItoa {n : Int} (h0 : 0 < n) (hm : n ≤ maxI64) :
    goAtoi (goItoa n) = (n, true) := by
  have hn : ¬ n < 0 := by omega
  have hdata : (goItoa n).data = natDigits n.toNat := by
    simp [goItoa, hn]
  obtain ⟨d, cs, heq, hd, hpos⟩ := natDigits_shape n.toNat
  have hd1 : 1 ≤ d := hpos (by omega)
  obtain ⟨hne1, hne2, _, _⟩ := digitChar_ne hd
  rw [goAtoi, hdata, heq]
  simp only [hne1, hne2, if_false, ← heq]
  rw [parseDigits_natDigits]
  have hv : (n.toNat : Int) = n := Int.toNat_of_nonneg (by omega)
  simp only [hv]
  have h1 : ¬ n > maxI64 := by omega
  have h2 : ¬ n < minI64 := by
    have : (0 : Int) > minI64 := by decide
    omega
  simp [h1, h2]

/-- `Question` from doh.go. Go's `Type RecordType` field is `Typ` here
(`Type` is reserved in Lean); `RecordType` is a 64-bit `int`, modelled as
`Int`. -/
structure Question where
  Name : String
  Typ : Int
  DisableDNSSEC : Bool
  EDNSClientSubnet : String
deriving DecidableEq

/-- The projection of a Go `url.Values` map onto the four keys the package
reads (`name`, `type`, `cd`, `edns_client_subnet`): each field holds the
list of values stored under that key, `[]` when the key is absent. -/
structure Values where
  name : List String
  type : List String
  cd : List String
  edns_client_subnet : List String
deriving DecidableEq

/-- Go `url.Values.Get`: first value under the key, `""` when absent. -/
def getFirst : List String → String
  | [] => ""
  | v :: _ => v

/-- `QuestionFromValues` from doh.go: read `type` with `strconv.Atoi`
(error value 0 kept, per `rr, _ :=`), coerce any result below 1 to 1, read
`cd` with `strconv.ParseBool` (error value false kept). -/
def QuestionFromValues (q : Values) : Question :=
  let rr0 := (goAtoi (getFirst q.type)).1
  let rr := if rr0 < 1 then 1 else rr0
  { Name := getFirst q.name
    Typ := rr
    DisableDNSSEC := (goParseBool (getFirst q.cd)).1
    EDNSClientSubnet := getFirst q.edns_client_subnet }

/-- `Question.Values` from doh.go: always emit `name` and `type`
(`"1"` when `Typ ≤ 0`), emit `cd=1` only when DNSSEC is disabled, emit
`edns_client_subnet` only when non-empty. -/
def Question.Values (r : Question) : Values :=
  { name := [r.Name]
    type := if r.Typ > 0 then [goItoa r.Typ] else ["1"]
    cd := if r.DisableDNSSEC then ["1"] else []
    edns_client_subnet := if r.EDNSClientSubnet ≠ "" then [r.EDNSClientSubnet] else [] }

/-- C2: for every Question with positive (int64-representable) `Typ`,
decoding the URL parameters it produces reproduces it exactly. -/
theorem question_roundtrip (q : Question) (h0 : 0 < q.Typ) (hm : q.Typ ≤ maxI64) :
    QuestionFromValues q.Values = q := by
  have htyp : getFirst (Question.Values q).type = goItoa q.Typ := by
    simp [Question.Values, h0, getFirst]
  have hat : goAtoi (getFirst (Question.Values q).type) = (q.Typ, true) := by
    rw [htyp]; exact goAtoi_goItoa h0 hm
  have hcd : (goParseBool (getFirst (Question.Values q).cd)).1 = q.DisableDNSSEC := by
    by_cases hd : q.DisableDNSSEC
    · simp [Question.Values, hd, getFirst, goParseBool]
    · simp [Question.Values, hd, getFirst, goParseBool]
  have hedns : getFirst (Question.Values q).edns_client_subnet = q.EDNSClientSubnet := by
    by_cases he : q.EDNSClientSubnet = ""
    · simp [Question.Values, he, getFirst]
    · simp [Question.Values, he, getFirst]
  have hname : getFirst (Question.Values q).name = q.Name := by
    simp [Question.Values, getFirst]
  cases q with
  | mk n t d e =>
    simp only [QuestionFromValues, hat, hcd, hedns, hname]
    simp only at h0
    have : ¬ t < 1 := by omega
    simp [this]

/-- Witness for C2 at a concrete Question. -/
theorem question_roundtrip_witness :
    (0 : Int) < 28 ∧ (28 : Int) ≤ maxI64 ∧
      QuestionFromValues (Question.Values ⟨"example.org.", 28, true, "192.0.2.0/24"⟩) =
        ⟨"example.org.", 28, true, "192.0.2.0/24"⟩ :=
  ⟨by decide, by decide,
    question_roundtrip ⟨"example.org.", 28, true, "192.0.2.0/24"⟩ (by decide) (by decide)⟩

/-- `rrNameToInt` from doh.go: the registered record-type mnemonics and
their IANA codes, in source order. Go stores this as a map with these exact
entries; an association list with distinct keys models it. -/
def rrNameToInt : List (String × Int) :=
  [("A", 1), ("NS", 2), ("CNAME", 5), ("SOA", 6), ("PTR", 12), ("HINFO", 13),
   ("MX", 15), ("TXT", 16), ("RP", 17), ("AFSDB", 18), ("SIG", 24), ("KEY", 25),
   ("AAAA", 28), ("LOC", 29), ("SRV", 33), ("NAPTR", 35), ("KX", 36),
   ("CERT", 37), ("DNAME", 39), ("OPT", 41), ("APL", 42), ("DS", 43),
   ("SSHFP", 44), ("IPSECKEY", 45), ("RRSIG", 46), ("NSEC", 47), ("DNSKEY", 48),
   ("DHCID", 49), ("NSEC3", 50), ("NSEC3PARAM", 51), ("TLSA", 52), ("HIP", 55),
   ("CDS", 59), ("CDNSKEY", 60), ("OPENPGPKEY", 61), ("SPF", 99), ("TKEY", 249),
   ("TSIG", 250), ("IXFR", 251), ("AXFR", 252), ("ANY", 255), ("URI", 256),
   ("CAA", 257), ("TA", 32768), ("DLV", 32769)]

/-- `RecordTypeFromString` from doh.go: map lookup, -1 when absent. -/
def RecordTypeFromString (name : String) : Int :=
  match rrNameToInt.find? (fun p => p.1 == name) with
  | some p => p.2
  | none => -1

/-- `RecordType.String` from doh.go: scan the table for the code (the Go map
iteration order is irrelevant because record-type codes are pairwise
distinct), falling back to `"unknown(N)"`. -/
def recordTypeString (rr : Int) : String :=
  match rrNameToInt.find? (fun p => p.2 == rr) with
  | some p => p.1
  | none => "unknown(" ++ goItoa rr ++ ")"

/-- C6: an unregistered name (lowercase mnemonics included) maps to -1, every
registered mnemonic maps to its unique code, and a code with no registered
mnemonic stringifies to `"unknown(N)"`. -/
theorem record_type_table_spec :
    (∀ name : String, (∀ p ∈ rrNameToInt, p.1 ≠ name) →
      RecordTypeFromString name = -1) ∧
    (∀ p ∈ rrNameToInt, RecordTypeFromString p.1 = p.2) ∧
    (∀ p ∈ rrNameToInt, ∀ q ∈ rrNameToInt, p.1 = q.1 → p.2 = q.2) ∧
    (∀ rr : Int, (∀ p ∈ rrNameToInt, p.2 ≠ rr) →
      recordTypeString rr = "unknown(" ++ goItoa rr ++ ")") := by
  refine ⟨?_, by decide, by decide, ?_⟩
  · intro name h
    have hf : rrNameToInt.find? (fun p => p.1 == name) = none := by
      rw [List.find?_eq_none]
      intro p hp
      simp [h p hp]
    simp [RecordTypeFromString, hf]
  · intro rr h
    have hf : rrNameToInt.find? (fun p => p.2 == rr) = none := by
      rw [List.find?_eq_none]
      intro p hp
      simp [h p hp]
    simp [recordTypeString, hf]

/-- Witness for C6: the unregistered name "BOGUS" and the lowercase "a" map
to -1, "AAAA" maps to 28, and 99999 stringifies to "unknown(99999)". -/
theorem record_type_table_spec_witness :
    RecordTypeFromString "BOGUS" = -1 ∧
    RecordTypeFromString "a" = -1 ∧
    RecordTypeFromString "AAAA" = 28 ∧
    recordTypeString 99999 = "unknown(" ++ goItoa 99999 ++ ")" ∧
    recordTypeString 99999 = "unknown(99999)" :=
  ⟨record_type_table_spec.1 "BOGUS" (by decide),
   record_type_table_spec.1 "a" (by decide),
   record_type_table_spec.2.1 ("AAAA", 28) (by decide),
   record_type_table_spec.2.2.2 99999 (by decide),
   by decide⟩

/-- C5 counterexample: `type=9223372036854775808` (2^63) is not parsable by
`strconv.Atoi` (it reports a range error), yet `QuestionFromValues` yields
`Typ = 9223372036854775807` — the clamped value Atoi returns alongside the
error — and not 1 as the claim states. -/
theorem question_type_default_counterexample :
    (goAtoi "9223372036854775808").2 = false ∧
    (QuestionFromValues ⟨[], ["9223372036854775808"], [], []⟩).Typ =
      9223372036854775807 ∧
    ¬ (QuestionFromValues ⟨[], ["9223372036854775808"], [], []⟩).Typ = 1 :=
  ⟨by decide, by decide, by decide⟩

/-- C5 amended: `QuestionFromValues` coerces the `type` parameter to 1
exactly when the integer value returned by `strconv.Atoi` — 0 on a syntax
error (non-numeric text, absent value), the clamped int64 boundary on a
range error — is below 1; otherwise that returned value is kept. So `0`,
`-5`, non-numeric text and an absent value all yield 1, but a numeric string
overflowing int64 yields the clamped boundary, not 1. -/
theorem question_type_default (v : Values) :
    ((goAtoi (getFirst v.type)).1 < 1 → (QuestionFromValues v).Typ = 1) ∧
    (¬ (goAtoi (getFirst v.type)).1 < 1 →
      (QuestionFromValues v).Typ = (goAtoi (getFirst v.type)).1) := by
  constructor <;> intro h <;> simp [QuestionFromValues, h]

/-- Witness for C5 (amended) at the spec's example inputs `0`, `-5`,
non-numeric text, and an absent `type` key. -/
theorem question_type_default_witness :
    ((goAtoi "0").1 < 1 ∧ (QuestionFromValues ⟨[], ["0"], [], []⟩).Typ = 1) ∧
    ((goAtoi "-5").1 < 1 ∧ (QuestionFromValues ⟨[], ["-5"], [], []⟩).Typ = 1) ∧
    ((goAtoi "xyz").1 < 1 ∧ (QuestionFromValues ⟨[], ["xyz"], [], []⟩).Typ = 1) ∧
    ((goAtoi "").1 < 1 ∧ (QuestionFromValues ⟨[], [], [], []⟩).Typ = 1) :=
  ⟨⟨by decide, (question_type_default ⟨[], ["0"], [], []⟩).1 (by decide)⟩,
   ⟨by decide, (question_type_default ⟨[], ["-5"], [], []⟩).1 (by decide)⟩,
   ⟨by decide, (question_type_default ⟨[], ["xyz"], [], []⟩).1 (by decide)⟩,
   ⟨by decide, (question_type_default ⟨[], [], [], []⟩).1 (by decide)⟩⟩

theorem string_mk_data (s : String) : String.mk s.data = s := by
  cases s
  rfl

/-- Model of the external `encoding/json` decoder restricted to decoding
into a Go `int` (the `else` branch of `RecordType.UnmarshalJSON`): accepts
an optionally negated decimal integer literal without a redundant leading
zero, in int64 range; anything else is an error. Whitespace tolerance of
the real decoder is not modelled (no claim depends on it). -/
def goJsonInt (b : List Char) : Except String Int :=
  let p : Bool × List Char :=
    if b.head? = some '-' then (true, b.tail) else (false, b)
  match parseDigits p.2 with
  | none => Except.error "invalid number literal"
  | some n =>
    if p.2.head? = some '0' ∧ 1 < p.2.length then
      Except.error "invalid number literal"
    else
      let v : Int := if p.1 then -(n : Int) else (n : Int)
      if v > maxI64 ∨ v < minI64 then Except.error "number out of range"
      else Except.ok v

/-- `RecordType.UnmarshalJSON` from doh.go, on the raw JSON bytes: empty
input errors; a quoted value of fewer than three bytes stores 0 without
error; a longer quoted value is looked up (unquoted, byte-exact) in the
mnemonic table; anything unquoted goes through the JSON integer decoder. -/
def recordTypeUnmarshalJSON (b : List Char) : Except String Int :=
  if b.length < 1 then Except.error "unexpected end of JSON input"
  else if b.head? == some '"' && b.getLast? == some '"' then
    if b.length < 3 then Except.ok 0
    else
      match rrNameToInt.find? (fun p => p.1 == String.mk ((b.drop 1).dropLast)) with
      | some p => Except.ok p.2
      | none => Except.error "unknown record type"
  else goJsonInt b

theorem rrTable_lookup_value :
    ∀ p ∈ rrNameToInt,
      (rrNameToInt.find? (fun q => q.1 == p.1)).map Prod.snd = some p.2 := by
  decide

theorem rrTable_names_nonempty : ∀ p ∈ rrNameToInt, p.1.data ≠ [] := by
  decide

theorem goJsonInt_neg_of_parse {l : List Char} {m : Nat}
    (hp : parseDigits l = some m) (h0 : ¬ (l.head? = some '0' ∧ 1 < l.length))
    (hr : ¬ (-(m : Int) > maxI64 ∨ -(m : Int) < minI64)) :
    goJsonInt ('-' :: l) = Except.ok (-(m : Int)) := by
  simp [goJsonInt, hp, h0, hr]

theorem goJsonInt_pos_of_parse {c : Char} {l : List Char} {m : Nat}
    (hc : ¬ c = '-') (hp : parseDigits (c :: l) = some m)
    (h0 : ¬ ((c :: l).head? = some '0' ∧ 1 < (c :: l).length))
    (hr : ¬ ((m : Int) > maxI64 ∨ (m : Int) < minI64)) :
    goJsonInt (c :: l) = Except.ok (m : Int) := by
  have h0x : c = '0' → l = [] := by
    intro hz
    by_contra hl
    have hlp := List.length_pos.mpr hl
    exact h0 ⟨by simp [hz], by simp only [List.length_cons]; omega⟩
  simp [goJsonInt, hc, hp, hr]
  intro hz
  exact h0x hz

/-- Decoding `goItoa n` (a canonical decimal literal) through the numeric
branch succeeds and stores `n`, for every int64 `n`. -/
theorem goJsonInt_goItoa {n : Int} (h1 : minI64 ≤ n) (h2 : n ≤ maxI64) :
    recordTypeUnmarshalJSON (goItoa n).data = Except.ok n := by
  by_cases hn : n < 0
  · have hdata : (goItoa n).data = '-' :: natDigits (-n).toNat := by
      simp [goItoa, hn, string_append_data]
    obtain ⟨d, cs, heq, hd, hpos⟩ := natDigits_shape (-n).toNat
    have hd1 : 1 ≤ d := hpos (by omega)
    obtain ⟨_, _, hq, hz⟩ := digitChar_ne hd
    rw [recordTypeUnmarshalJSON, hdata]
    rw [if_neg (by simp)]
    rw [if_neg (by simp)]
    have hres : goJsonInt ('-' :: natDigits (-n).toNat) =
        Except.ok (-((((-n).toNat) : Nat) : Int)) := by
      apply goJsonInt_neg_of_parse (parseDigits_natDigits _)
      · rw [heq]
        intro hc
        simp only [List.head?_cons, Option.some_inj] at hc
        exact (hz hd1) hc.1
      · rw [Int.toNat_of_nonneg (by omega)]
        omega
    rw [hres]
    congr 1
    omega
  · have hdata : (goItoa n).data = natDigits n.toNat := by
      simp [goItoa, hn]
    obtain ⟨d, cs, heq, hd, hpos⟩ := natDigits_shape n.toNat
    obtain ⟨hm, hp2, hq, hz⟩ := digitChar_ne hd
    rw [recordTypeUnmarshalJSON, hdata, heq]
    rw [if_neg (by simp)]
    rw [if_neg (by simp [hq])]
    have hres : goJsonInt (digitChar d :: cs) = Except.ok (((n.toNat) : Nat) : Int) := by
      apply goJsonInt_pos_of_parse hm
      · rw [← heq]
        exact parseDigits_natDigits _
      · intro hc
        simp only [List.head?_cons, Option.some_inj] at hc
        by_cases h0 : n.toNat = 0
        · rw [h0] at heq
          have h01 : natDigits 0 = ['0'] := by decide
          rw [h01] at heq
          injection heq with ha hb
          rw [← hb] at hc
          simp at hc
        · exact (hz (hpos (by omega))) hc.1
      · rw [Int.toNat_of_nonneg (by omega)]
        omega
    rw [hres]
    congr 1
    exact Int.toNat_of_nonneg (by omega)

/-- C8: `RecordType.UnmarshalJSON` accepts a numeric literal (stored as-is,
shown here on the canonical literal of every int64 value) and a quoted
registered mnemonic (looked up in the table); the empty quoted string `""`
stores the sentinel 0 without error; a non-empty quoted unregistered string
errors. -/
theorem record_type_unmarshal_spec :
    (∀ n : Int, minI64 ≤ n → n ≤ maxI64 →
      recordTypeUnmarshalJSON (goItoa n).data = Except.ok n) ∧
    (∀ p ∈ rrNameToInt,
      recordTypeUnmarshalJSON ('"' :: p.1.data ++ ['"']) = Except.ok p.2) ∧
    (recordTypeUnmarshalJSON ['"', '"'] = Except.ok 0) ∧
    (∀ s : String, s.data ≠ [] → (∀ p ∈ rrNameToInt, p.1 ≠ s) →
      recordTypeUnmarshalJSON ('"' :: s.data ++ ['"']) =
        Except.error "unknown record type") := by
  refine ⟨fun n h1 h2 => goJsonInt_goItoa h1 h2, ?_, rfl, ?_⟩
  · intro p hp
    have hne := rrTable_names_nonempty p hp
    have hmid : (('"' :: p.1.data ++ ['"']).drop 1).dropLast = p.1.data := by
      simp
    rw [recordTypeUnmarshalJSON]
    have hhead : ('"' :: p.1.data ++ ['"']).head? = some '"' := rfl
    have hlast : ('"' :: p.1.data ++ ['"']).getLast? = some '"' := by
      rw [show ('"' :: p.1.data ++ ['"']) = ('"' :: p.1.data) ++ ['"'] from rfl]
      exact List.getLast?_concat _
    have hlen : ('"' :: p.1.data ++ ['"']).length = p.1.data.length + 2 := by
      simp
    rw [if_neg (by rw [hlen]; omega)]
    rw [if_pos (by rw [hhead, hlast]; rfl)]
    rw [if_neg (by rw [hlen]; have := List.length_pos.mpr hne; omega)]
    rw [hmid, string_mk_data]
    have hlv := rrTable_lookup_value p hp
    cases hf : rrNameToInt.find? (fun q => q.1 == p.1) with
    | none =>
      rw [hf] at hlv
      exact absurd hlv (by simp)
    | some q =>
      rw [hf] at hlv
      have hq2 : q.2 = p.2 := by simpa using hlv
      show Except.ok q.2 = Except.ok p.2
      rw [hq2]
  · intro s hne h
    have hmid : (('"' :: s.data ++ ['"']).drop 1).dropLast = s.data := by
      simp
    rw [recordTypeUnmarshalJSON]
    have hlast : ('"' :: s.data ++ ['"']).getLast? = some '"' := by
      rw [show ('"' :: s.data ++ ['"']) = ('"' :: s.data) ++ ['"'] from rfl]
      exact List.getLast?_concat _
    have hlen : ('"' :: s.data ++ ['"']).length = s.data.length + 2 := by
      simp
    rw [if_neg (by rw [hlen]; omega)]
    rw [if_pos (by rw [hlast]; rfl)]
    rw [if_neg (by rw [hlen]; have := List.length_pos.mpr hne; omega)]
    rw [hmid, string_mk_data]
    have hf : rrNameToInt.find? (fun q => q.1 == s) = none := by
      rw [List.find?_eq_none]
      intro p hp
      simp [h p hp]
    rw [hf]

/-- Witness for C8: the literal 257 decodes to 257, the quoted mnemonic
"TXT" decodes to 16, and the quoted unregistered "BOGUS" errors. -/
theorem record_type_unmarshal_spec_witness :
    recordTypeUnmarshalJSON (goItoa 257).data = Except.ok 257 ∧
    recordTypeUnmarshalJSON ('"' :: ("TXT" : String).data ++ ['"']) = Except.ok 16 ∧
    recordTypeUnmarshalJSON ('"' :: ("BOGUS" : String).data ++ ['"']) =
      Except.error "unknown record type" :=
  ⟨record_type_unmarshal_spec.1 257 (by decide) (by decide),
   record_type_unmarshal_spec.2.1 ("TXT", 16) (by decide),
   record_type_unmarshal_spec.2.2.2 "BOGUS" (by decide) (by decide)⟩

/-- Go `strings.HasPrefix s pre` (byte-wise; for valid UTF-8 this is the
character-wise test below). -/
def hasPrefixGo (s pre : String) : Bool :=
  s.data.take pre.data.length == pre.data

/-- `Record` from doh.go (`Type` is `Typ`, as in `Question`). -/
structure Record where
  Name : String
  Typ : Int
  TTL : Int
  Data : String
deriving DecidableEq

/-- `Answer` from doh.go. The Go fields `Question` and `Answer` are `Quest`
and `Ans` here (they would clash with the type names in Lean); Go's zero
value for the struct is `Answer.zero` below. -/
structure Answer where
  Status : Int
  Truncated : Bool
  RecursionDesired : Bool
  RecursionAvailable : Bool
  DNSSECValidated : Bool
  DNSSECDisabled : Bool
  Quest : List Question
  Ans : List Record
  Authority : List Record
  Additional : List Record
  Comment : String
  EdnsClientSubnet : String
deriving DecidableEq

/-- The Go zero value of `Answer` (`&Answer{}`). -/
def Answer.zero : Answer :=
  ⟨0, false, false, false, false, false, [], [], [], [], "", ""⟩

/-- `ServerFailure` return code (doh.go): 2. -/
def ServerFailure : Int := 2

/-- `Server` from part_000: the resolution callback (`Handler`, nil modelled
as `none`; a callback returning nil models the handler returning a nil
`*Answer`) and the `AllowHTTP` flag. -/
structure Server where
  Handler : Option (Question → Option Answer)
  AllowHTTP : Bool

/-- The parts of an inbound `*http.Request` that `ServeHTTP` reads: the
method, the `Accept` header as returned by `Header.Get` (`""` when absent),
the URL scheme, and the parsed URL query. -/
structure Request where
  Method : String
  Accept : String
  Scheme : String
  Query : Values

/-- The observable response `ServeHTTP` writes: status code, the
`Content-Type` header if set, and the encoded `Answer` body if any. -/
structure Response where
  status : Nat
  contentType : Option String
  body : Option Answer

/-- `Server.ServeHTTP` from part_000, as the pure request-to-response
function: the five guard checks in source order, then the derived
Question's name check, then the 200 path with the callback's answer (or the
synthesized ServerFailure answer when the callback returns nil). -/
def Server.ServeHTTP (s : Server) (r : Request) : Response :=
  if r.Method ≠ "GET" then ⟨400, none, none⟩
  else if r.Accept = "" then ⟨400, none, none⟩
  else if hasPrefixGo r.Accept "application/dns-json" then ⟨415, none, none⟩
  else
    match s.Handler with
    | none => ⟨500, none, none⟩
    | some handler =>
      if r.Scheme ≠ "https" ∧ ¬ s.AllowHTTP then ⟨403, none, none⟩
      else
        let req := QuestionFromValues r.Query
        if req.Name = "" then ⟨400, none, none⟩
        else
          let res :=
            match handler req with
            | none => { Answer.zero with Status := ServerFailure }
            | some a => a
          ⟨200, some "application/dns-json; charset=utf-8", some res⟩

/-- C1: the six validation checks run in this fixed short-circuit order —
non-GET 400; absent Accept 400; Accept with the "application/dns-json"
prefix 415; no callback 500; non-https scheme without AllowHTTP 403; empty
derived name 400 — the first failing check alone determines the status, and
200 is produced exactly when all six pass. -/
theorem serve_http_validation_order (s : Server) (r : Request) :
    (r.Method ≠ "GET" → s.ServeHTTP r = ⟨400, none, none⟩) ∧
    (r.Method = "GET" → r.Accept = "" → s.ServeHTTP r = ⟨400, none, none⟩) ∧
    (r.Method = "GET" → r.Accept ≠ "" →
      hasPrefixGo r.Accept "application/dns-json" = true →
      s.ServeHTTP r = ⟨415, none, none⟩) ∧
    (r.Method = "GET" → r.Accept ≠ "" →
      hasPrefixGo r.Accept "application/dns-json" = false →
      s.Handler = none → s.ServeHTTP r = ⟨500, none, none⟩) ∧
    (∀ h, r.Method = "GET" → r.Accept ≠ "" →
      hasPrefixGo r.Accept "application/dns-json" = false →
      s.Handler = some h → r.Scheme ≠ "https" → s.AllowHTTP = false →
      s.ServeHTTP r = ⟨403, none, none⟩) ∧
    (∀ h, r.Method = "GET" → r.Accept ≠ "" →
      hasPrefixGo r.Accept "application/dns-json" = false →
      s.Handler = some h → (r.Scheme = "https" ∨ s.AllowHTTP = true) →
      (QuestionFromValues r.Query).Name = "" →
      s.ServeHTTP r = ⟨400, none, none⟩) ∧
    (∀ h, r.Method = "GET" → r.Accept ≠ "" →
      hasPrefixGo r.Accept "application/dns-json" = false →
      s.Handler = some h → (r.Scheme = "https" ∨ s.AllowHTTP = true) →
      (QuestionFromValues r.Query).Name ≠ "" →
      (s.ServeHTTP r).status = 200) := by
  refine ⟨?_, ?_, ?_, ?_, ?_, ?_, ?_⟩
  · intro h1
    simp [Server.ServeHTTP, h1]
  · intro h1 h2
    simp [Server.ServeHTTP, h1, h2]
  · intro h1 h2 h3
    simp [Server.ServeHTTP, h1, h2, h3]
  · intro h1 h2 h3 h4
    simp [Server.ServeHTTP, h1, h2, h3, h4]
  · intro h h1 h2 h3 h4 h5 h6
    simp [Server.ServeHTTP, h1, h2, h3, h4, h5, h6]
  · intro h h1 h2 h3 h4 h5 h6
    have hs : ¬ (¬ r.Scheme = "https" ∧ s.AllowHTTP = false) := by
      rcases h5 with h5 | h5
      · intro hc
        exact hc.1 h5
      · intro hc
        rw [h5] at hc
        exact absurd hc.2 (by simp)
    simp [Server.ServeHTTP, h1, h2, h3, h4, hs, h6]
  · intro h h1 h2 h3 h4 h5 h6
    have hs : ¬ (¬ r.Scheme = "https" ∧ s.AllowHTTP = false) := by
      rcases h5 with h5 | h5
      · intro hc
        exact hc.1 h5
      · intro hc
        rw [h5] at hc
        exact absurd hc.2 (by simp)
    simp [Server.ServeHTTP, h1, h2, h3, h4, hs, h6]

/-- Witness for C1: one concrete request per validation branch (the spec's
scenario list), plus the all-pass 200 case. -/
theorem serve_http_validation_order_witness :
    (Server.ServeHTTP ⟨some (fun _ => none), false⟩
      ⟨"POST", "application/json", "https", ⟨[], [], [], []⟩⟩ = ⟨400, none, none⟩) ∧
    (Server.ServeHTTP ⟨some (fun _ => none), false⟩
      ⟨"GET", "", "https", ⟨[], [], [], []⟩⟩ = ⟨400, none, none⟩) ∧
    (Server.ServeHTTP ⟨some (fun _ => none), false⟩
      ⟨"GET", "application/dns-json-extra", "https", ⟨[], [], [], []⟩⟩ =
        ⟨415, none, none⟩) ∧
    (Server.ServeHTTP ⟨none, false⟩
      ⟨"GET", "application/json", "https", ⟨[], [], [], []⟩⟩ = ⟨500, none, none⟩) ∧
    (Server.ServeHTTP ⟨some (fun _ => none), false⟩
      ⟨"GET", "application/json", "http", ⟨[], [], [], []⟩⟩ = ⟨403, none, none⟩) ∧
    (Server.ServeHTTP ⟨some (fun _ => none), false⟩
      ⟨"GET", "application/json", "https", ⟨[], [], [], []⟩⟩ = ⟨400, none, none⟩) ∧
    ((Server.ServeHTTP ⟨some (fun _ => none), false⟩
      ⟨"GET", "application/json", "https", ⟨["example.com"], [], [], []⟩⟩).status = 200) :=
  ⟨(serve_http_validation_order _ _).1 (by decide),
   (serve_http_validation_order _ _).2.1 rfl rfl,
   (serve_http_validation_order _ _).2.2.1 rfl (by decide) (by decide),
   (serve_http_validation_order _ _).2.2.2.1 rfl (by decide) (by decide) rfl,
   (serve_http_validation_order _ _).2.2.2.2.1 (fun _ => none) rfl (by decide)
     (by decide) rfl (by decide) rfl,
   (serve_http_validation_order _ _).2.2.2.2.2.1 (fun _ => none) rfl (by decide)
     (by decide) rfl (Or.inl rfl) (by decide),
   (serve_http_validation_order _ _).2.2.2.2.2.2 (fun _ => none) rfl (by decide)
     (by decide) rfl (Or.inl rfl) (by decide)⟩

/-- C3: when all six validations pass and the callback returns nil, the
server responds 200 with the synthesized Answer: Status 2 (ServerFailure),
empty Answer record list, every other field the Go zero value. -/
theorem serve_http_synthesized_failure (s : Server) (r : Request)
    (h : Question → Option Answer)
    (h1 : r.Method = "GET") (h2 : r.Accept ≠ "")
    (h3 : hasPrefixGo r.Accept "application/dns-json" = false)
    (h4 : s.Handler = some h)
    (h5 : r.Scheme = "https" ∨ s.AllowHTTP = true)
    (h6 : (QuestionFromValues r.Query).Name ≠ "")
    (h7 : h (QuestionFromValues r.Query) = none) :
    s.ServeHTTP r =
      ⟨200, some "application/dns-json; charset=utf-8",
        some ⟨2, false, false, false, false, false, [], [], [], [], "", ""⟩⟩ := by
  have hs : ¬ (¬ r.Scheme = "https" ∧ s.AllowHTTP = false) := by
    rcases h5 with h5 | h5
    · intro hc
      exact hc.1 h5
    · intro hc
      rw [h5] at hc
      exact absurd hc.2 (by simp)
  simp [Server.ServeHTTP, h1, h2, h3, h4, hs, h6, h7, Answer.zero, ServerFailure]

/-- Witness for C3 at a concrete server whose callback always returns nil. -/
theorem serve_http_synthesized_failure_witness :
    Server.ServeHTTP ⟨some (fun _ => none), false⟩
      ⟨"GET", "application/json", "https", ⟨["example.com"], [], [], []⟩⟩ =
      ⟨200, some "application/dns-json; charset=utf-8",
        some ⟨2, false, false, false, false, false, [], [], [], [], "", ""⟩⟩ :=
  serve_http_synthesized_failure _ _ (fun _ => none) rfl (by decide) (by decide)
    rfl (Or.inl rfl) (by decide) rfl

/-- The parts of a Go `*url.URL` the client reads and copies: scheme, user
info, host, path. -/
structure URL where
  Scheme : String
  User : String
  Host : String
  Path : String
deriving DecidableEq

/-- A Go error value as the client's error handling observes it: whether the
`err.(net.Error)` assertion succeeds, what `Timeout()` reports, and the
`Error()` text. -/
structure NetErr where
  isNetError : Bool
  isTimeout : Bool
  msg : String
deriving DecidableEq

/-- The error results `Client.Do` can return: a `*ClientError` (message and
optional wrapped cause), the transport's own error returned unchanged, an
`HTTPError` status code, or a JSON decode error surfaced verbatim. -/
inductive DoErr where
  | clientError (msg : String) (cause : Option NetErr)
  | transportErr (e : NetErr)
  | httpError (code : Nat)
  | jsonError (msg : String)
deriving DecidableEq

/-- `ClientError.Cause` from part_001 (the other error kinds carry no
cause). -/
def DoErr.cause : DoErr → Option NetErr
  | .clientError _ c => c
  | _ => none

/-- `Error()` of each error kind from part_001: `ClientError` prints
`msg` or `msg ++ ": " ++ cause`, `HTTPError` prints "HTTP Error N". -/
def DoErr.errText : DoErr → String
  | .clientError m none => m
  | .clientError m (some e) => m ++ ": " ++ e.msg
  | .transportErr e => e.msg
  | .httpError code => "HTTP Error " ++ goItoa code
  | .jsonError m => m

/-- An HTTP response as `Client.Do` consumes it: the status code, and the
outcome of `unmarshalJSON` on the body stream (JSON decoding is done by the
external `encoding/json`, modelled by its result). -/
structure HTTPResp where
  StatusCode : Nat
  Body : Except String Answer

/-- The `UserAgent` constant from part_001. -/
def UserAgent : String := "doh/1.0.0 (+https://github.com/jamescun/doh)"

/-- The outgoing `*http.Request` that `Client.Do` builds. `RawQuery` keeps
the question's URL parameters structured (Go stores their
`url.Values.Encode()` string; that percent-encoding lives in the external
`net/url`). -/
structure HTTPReq where
  Method : String
  Scheme : String
  User : String
  Host : String
  Path : String
  RawQuery : Values
  Accept : String
  UserAgentHeader : String
  HostField : String

/-- An HTTP transport (`*http.Client.Do`): request to response or error. -/
def Transport := HTTPReq → Except NetErr HTTPResp

/-- The request-construction part of `Client.Do` (part_001 lines 59-73). -/
def buildReq (addr : URL) (q : Question) : HTTPReq :=
  { Method := "GET"
    Scheme := addr.Scheme
    User := addr.User
    Host := addr.Host
    Path := addr.Path
    RawQuery := q.Values
    Accept := "application/dns-json"
    UserAgentHeader := UserAgent
    HostField := addr.Host }

/-- `Client` from part_001: server address (`nil` as `none`), HTTP client
(`nil` as `none`), plaintext flag. -/
structure Client where
  Addr : Option URL
  HTTPClient : Option Transport
  AllowHTTP : Bool

/-- The dispatch-and-decode part of `Client.Do` (part_001 lines 75-100):
call the transport; reclassify a timing-out `net.Error` as a
"server timeout" `ClientError` wrapping the original, return other errors
unchanged; on 200 decode the body, otherwise return `HTTPError`. -/
def doTransportPhase (transport : Transport) (req : HTTPReq) :
    Option Answer × Option DoErr :=
  match transport req with
  | Except.error e =>
    if e.isNetError && e.isTimeout then
      (none, some (DoErr.clientError "server timeout" (some e)))
    else (none, some (DoErr.transportErr e))
  | Except.ok w =>
    if w.StatusCode = 200 then
      match w.Body with
      | Except.error m => (none, some (DoErr.jsonError m))
      | Except.ok x => (some x, none)
    else (none, some (DoErr.httpError w.StatusCode))

/-- `Client.Do` from part_001, returning `((answer?, error?), client after
the call)`. The measured round-trip time (wall clock) is not modelled; the
`http.DefaultClient` global the method falls back to — and writes into
`c.HTTPClient` when that field is nil — is the `defaultClient` parameter. -/
def Client.Do (defaultClient : Transport) (c : Client) (q : Question) :
    (Option Answer × Option DoErr) × Client :=
  match c.Addr with
  | none => ((none, some (DoErr.clientError "no server configured" none)), c)
  | some addr =>
    if addr.Scheme ≠ "https" ∧ ¬ c.AllowHTTP then
      ((none, some (DoErr.clientError "https required" none)), c)
    else
      let c2 : Client :=
        if c.HTTPClient.isNone then { c with HTTPClient := some defaultClient }
        else c
      (doTransportPhase (c2.HTTPClient.getD defaultClient) (buildReq addr q), c2)

theorem string_append_assoc (a b c : String) : (a ++ b) ++ c = a ++ (b ++ c) := by
  cases a with
  | mk la =>
    cases b with
    | mk lb =>
      cases c with
      | mk lc =>
        show String.mk ((la ++ lb) ++ lc) = String.mk (la ++ (lb ++ lc))
        rw [List.append_assoc]

/-- C7: with no address configured `Client.Do` fails with the
"no server configured" `ClientError`, and with a non-https address and
plaintext disallowed it fails with "https required"; in both cases the
outcome is the same for every installed or default transport — no HTTP
request is issued. -/
theorem client_do_preconditions (d : Transport) (c : Client) (q : Question) :
    (c.Addr = none →
      (Client.Do d c q).1 =
        (none, some (DoErr.clientError "no server configured" none)) ∧
      (∀ d2 t, (Client.Do d2 { c with HTTPClient := t } q).1 = (Client.Do d c q).1)) ∧
    (∀ addr, c.Addr = some addr → addr.Scheme ≠ "https" → c.AllowHTTP = false →
      (Client.Do d c q).1 =
        (none, some (DoErr.clientError "https required" none)) ∧
      (∀ d2 t, (Client.Do d2 { c with HTTPClient := t } q).1 = (Client.Do d c q).1)) := by
  constructor
  · intro hA
    constructor
    · simp [Client.Do, hA]
    · intro d2 t
      simp [Client.Do, hA]
  · intro addr hA hsc hph
    have hcond : addr.Scheme ≠ "https" ∧ ¬ c.AllowHTTP = true := by
      constructor
      · exact hsc
      · rw [hph]
        simp
    constructor
    · simp [Client.Do, hA, hcond]
    · intro d2 t
      simp [Client.Do, hA, hcond]

/-- Witness for C7: a nil-address client and an http-scheme client, each
with an arbitrary concrete transport. -/
theorem client_do_preconditions_witness :
    ((Client.Do (fun _ => Except.error ⟨false, false, "x"⟩) ⟨none, none, false⟩
        ⟨"example.org.", 1, false, ""⟩).1 =
      (none, some (DoErr.clientError "no server configured" none))) ∧
    ((Client.Do (fun _ => Except.error ⟨false, false, "x"⟩)
        ⟨some ⟨"http", "", "dns.example", "/resolve"⟩, none, false⟩
        ⟨"example.org.", 1, false, ""⟩).1 =
      (none, some (DoErr.clientError "https required" none))) :=
  ⟨((client_do_preconditions _ _ _).1 rfl).1,
   ((client_do_preconditions _ _ _).2 ⟨"http", "", "dns.example", "/resolve"⟩ rfl
      (by decide) rfl).1⟩

/-- C4: when the transport fails with an error whose `net.Error` assertion
succeeds and whose `Timeout()` is true, `Client.Do` returns a `ClientError`
whose `Error()` text extends "server timeout" and whose `Cause()` is the
original transport error; any other transport error is returned unchanged. -/
theorem client_do_timeout (d : Transport) (c : Client) (q : Question)
    (addr : URL) (t : Transport) (e : NetErr)
    (ha : c.Addr = some addr)
    (hs : addr.Scheme = "https" ∨ c.AllowHTTP = true)
    (ht : c.HTTPClient = some t)
    (he : t (buildReq addr q) = Except.error e) :
    (e.isNetError = true → e.isTimeout = true →
      (Client.Do d c q).1 =
        (none, some (DoErr.clientError "server timeout" (some e))) ∧
      (DoErr.clientError "server timeout" (some e)).cause = some e ∧
      (DoErr.clientError "server timeout" (some e)).errText =
        "server timeout" ++ (": " ++ e.msg)) ∧
    (¬ (e.isNetError = true ∧ e.isTimeout = true) →
      (Client.Do d c q).1 = (none, some (DoErr.transportErr e))) := by
  have hcond : ¬ (¬ addr.Scheme = "https" ∧ c.AllowHTTP = false) := by
    rcases hs with hs | hs
    · intro hc
      exact hc.1 hs
    · intro hc
      rw [hs] at hc
      exact absurd hc.2 (by simp)
  constructor
  · intro h1 h2
    refine ⟨?_, rfl, ?_⟩
    · simp [Client.Do, ha, hcond, ht, doTransportPhase, he, h1, h2]
    · show ("server timeout" ++ ": ") ++ e.msg = "server timeout" ++ (": " ++ e.msg)
      exact string_append_assoc _ _ _
  · intro h12
    have hb : (e.isNetError && e.isTimeout) = false := by
      cases hN : e.isNetError <;> cases hT : e.isTimeout <;> simp_all
    simp [Client.Do, ha, hcond, ht, doTransportPhase, he, hb]

/-- Witness for C4: a transport failing with a timing-out `net.Error`
(which is reclassified) and one failing with a non-timeout error (returned
unchanged). -/
theorem client_do_timeout_witness :
    ((Client.Do (fun _ => Except.error ⟨false, false, "x"⟩)
        ⟨some ⟨"https", "", "dns.google.com", "/resolve"⟩,
          some (fun _ => Except.error ⟨true, true, "context deadline exceeded"⟩),
          false⟩
        ⟨"example.org.", 1, false, ""⟩).1 =
      (none, some (DoErr.clientError "server timeout"
        (some ⟨true, true, "context deadline exceeded"⟩)))) ∧
    ((DoErr.clientError "server timeout"
        (some (⟨true, true, "context deadline exceeded"⟩ : NetErr))).cause =
      some ⟨true, true, "context deadline exceeded"⟩) ∧
    ((DoErr.clientError "server timeout"
        (some (⟨true, true, "context deadline exceeded"⟩ : NetErr))).errText =
      "server timeout" ++ (": " ++ "context deadline exceeded")) ∧
    ((Client.Do (fun _ => Except.error ⟨false, false, "x"⟩)
        ⟨some ⟨"https", "", "dns.google.com", "/resolve"⟩,
          some (fun _ => Except.error ⟨true, false, "connection refused"⟩),
          false⟩
        ⟨"example.org.", 1, false, ""⟩).1 =
      (none, some (DoErr.transportErr ⟨true, false, "connection refused"⟩))) :=
  ⟨((client_do_timeout _ _ _ ⟨"https", "", "dns.google.com", "/resolve"⟩
      (fun _ => Except.error ⟨true, true, "context deadline exceeded"⟩)
      ⟨true, true, "context deadline exceeded"⟩ rfl (Or.inl rfl) rfl rfl).1 rfl rfl).1,
   ((client_do_timeout (fun _ => Except.error ⟨false, false, "x"⟩)
      ⟨some ⟨"https", "", "dns.google.com", "/resolve"⟩,
        some (fun _ => Except.error ⟨true, true, "context deadline exceeded"⟩),
        false⟩
      ⟨"example.org.", 1, false, ""⟩ ⟨"https", "", "dns.google.com", "/resolve"⟩
      (fun _ => Except.error ⟨true, true, "context deadline exceeded"⟩)
      ⟨true, true, "context deadline exceeded"⟩ rfl (Or.inl rfl) rfl rfl).1 rfl rfl).2.1,
   ((client_do_timeout (fun _ => Except.error ⟨false, false, "x"⟩)
      ⟨some ⟨"https", "", "dns.google.com", "/resolve"⟩,
        some (fun _ => Except.error ⟨true, true, "context deadline exceeded"⟩),
        false⟩
      ⟨"example.org.", 1, false, ""⟩ ⟨"https", "", "dns.google.com", "/resolve"⟩
      (fun _ => Except.error ⟨true, true, "context deadline exceeded"⟩)
      ⟨true, true, "context deadline exceeded"⟩ rfl (Or.inl rfl) rfl rfl).1 rfl rfl).2.2,
   (client_do_timeout _ _ _ ⟨"https", "", "dns.google.com", "/resolve"⟩
      (fun _ => Except.error ⟨true, false, "connection refused"⟩)
      ⟨true, false, "connection refused"⟩ rfl (Or.inl rfl) rfl rfl).2 (by decide)⟩

/-- C9 counterexample: on a client whose `HTTPClient` is nil but whose
configuration checks pass, `Client.Do` writes `http.DefaultClient` into the
`HTTPClient` field — the field is `some` after the call though it was `none`
before, so the call does mutate the Client. -/
theorem client_do_state_counterexample :
    ((Client.Do (fun _ => Except.error ⟨false, false, "connection refused"⟩)
        ⟨some ⟨"https", "", "dns.example", "/resolve"⟩, none, false⟩
        ⟨"example.org.", 1, false, ""⟩).2).HTTPClient.isSome = true ∧
    (Client.mk (some ⟨"https", "", "dns.example", "/resolve"⟩) none
        false).HTTPClient.isSome = false :=
  ⟨rfl, rfl⟩

/-- C9 amended: `Client.Do` preserves `Addr` and `AllowHTTP`, and preserves
`HTTPClient` except in one case: when `HTTPClient` is nil and the
configuration checks pass, it is set to the default client
(`http.DefaultClient`). -/
theorem client_do_state (d : Transport) (c : Client) (q : Question) :
    ((Client.Do d c q).2).Addr = c.Addr ∧
    ((Client.Do d c q).2).AllowHTTP = c.AllowHTTP ∧
    (((Client.Do d c q).2).HTTPClient = c.HTTPClient ∨
      (c.HTTPClient = none ∧ ((Client.Do d c q).2).HTTPClient = some d)) := by
  unfold Client.Do
  cases hA : c.Addr with
  | none => simp [hA]
  | some addr =>
    by_cases hcond : ¬ addr.Scheme = "https" ∧ c.AllowHTTP = false
    · simp [hcond, hA]
    · cases hH : c.HTTPClient with
      | none => simp [hcond, hA, hH]
      | some t => simp [hcond, hA, hH]
